import Mathlib

/-!
Verification development for the Steam game search engine (src/app.py).

The application is shallowly embedded: JSON values manipulated by the
Python code are modelled by the inductive type `PyVal`; the two local
JSON files (catalog cache and history file) are modelled by explicit
file-state types (absent, corrupt, or holding a parsed value); network
calls are modelled by passing the response of the remote endpoint as an
argument; exceptions raised by the Python code are modelled with
`Except`.  Each function of src/app.py that the claims mention is
translated into a Lean definition of the same name.
-/

/-- A Python/JSON value, as handled by the app: the result of json.load,
r.json(), and the dictionaries built by the handlers. -/
inductive PyVal where
  | none : PyVal
  | bool : Bool → PyVal
  | int : Int → PyVal
  | str : String → PyVal
  | list : List PyVal → PyVal
  | dict : List (String × PyVal) → PyVal

/-- Python truthiness, as used by the conditions in get_app_details:
None, False, 0, the empty string, the empty list and the empty dict are
falsy; everything else is truthy. -/
def PyVal.truthy : PyVal → Bool
  | .none => false
  | .bool b => b
  | .int n => n != 0
  | .str s => s != ""
  | .list xs => !xs.isEmpty
  | .dict kvs => !kvs.isEmpty

/-- The Python exceptions that the modelled code can raise. -/
inductive PyErr where
  /-- requests.ConnectionError or requests.Timeout. -/
  | networkError : PyErr
  /-- requests.HTTPError raised by raise_for_status. -/
  | httpError : PyErr
  /-- AttributeError: .get called on a value that is not a dict. -/
  | attributeError : PyErr
  /-- IndexError: subscripting an empty list. -/
  | indexError : PyErr
  /-- TypeError: subscripting a value that is not a list. -/
  | typeError : PyErr
deriving DecidableEq, Repr

/-- d.get(k, default) on a Python dict; raises AttributeError when the
receiver is not a dict.  Dict keys are unique, so the first binding in
the association list is the binding. -/
def pyGetD (v : PyVal) (k : String) (d : PyVal) : Except PyErr PyVal :=
  match v with
  | .dict kvs => .ok ((kvs.lookup k).getD d)
  | _ => .error .attributeError

/-- d.get(k) on a Python dict: the default is None. -/
def pyGet (v : PyVal) (k : String) : Except PyErr PyVal :=
  pyGetD v k .none

/-- v[i] for a natural index: IndexError on an out-of-range index of a
list; subscripting a non-list value is modelled as a TypeError. -/
def pyIndex (v : PyVal) (i : Nat) : Except PyErr PyVal :=
  match v with
  | .list xs =>
    match xs.get? i with
    | some x => .ok x
    | Option.none => .error .indexError
  | _ => .error .typeError

/-! ## Catalog entries and the search engine (search_apps, lines 41-51) -/

/-- A catalog entry {appid, name}, the well-formed shape of the elements
of the cached app list; app.get( "name", "") becomes the name field. -/
structure CatalogEntry where
  appid : Int
  name : String
deriving DecidableEq, Repr

/-- str.lower(), modelled over the character list so that it evaluates
by kernel reduction (ASCII case folding, as Char.toLower does). -/
def strLower (s : String) : String :=
  String.mk (s.data.map Char.toLower)

/-- The Python substring test q in s: some tail of s starts with q. -/
def strContains (s q : String) : Bool :=
  s.data.tails.any (fun t => q.data.isPrefixOf t)

/-- The match condition of the search loop: q in name.lower(), where q
is already lower-cased by the caller. -/
def matchesQuery (q : String) (e : CatalogEntry) : Bool :=
  strContains (strLower e.name) q

/-- The for-loop of search_apps: walk the catalog accumulating matches,
and break as soon as len(matches) >= limit after an append. -/
def search_go (q : String) (limit : Nat) :
    List CatalogEntry → List CatalogEntry → List CatalogEntry
  | [], ms => ms
  | a :: rest, ms =>
    if matchesQuery q a then
      let ms2 := ms ++ [a]
      if limit ≤ ms2.length then ms2
      else search_go q limit rest ms2
    else search_go q limit rest ms

/-- search_apps(query, limit=10): lower-case the query, then scan the
catalog in order collecting entries whose lower-cased name contains it,
stopping once limit matches are collected. -/
def search_apps (apps : List CatalogEntry) (query : String)
    (limit : Nat := 10) : List CatalogEntry :=
  search_go (strLower query) limit apps []

/-! ## The details fetcher (get_app_details, lines 53-72) -/

/-- The response of the remote details endpoint as seen by
get_app_details: either the network call raised, or it returned a status
code and a JSON body. -/
inductive DetailsResp where
  | netError : DetailsResp
  | ok : Nat → PyVal → DetailsResp

/-- The normalized result dictionary built by get_app_details. -/
structure DetailsResult where
  appid : Int
  name : PyVal
  description : PyVal
  is_free : PyVal
  price : PyVal
  rating : PyVal
  header_image : PyVal
  steam_url : String

/-- The price expression of line 67: the final_formatted field of the
price_overview block when that block is truthy, else "Free" when is_free
is truthy, else "N/A". -/
def priceCalc (info : PyVal) : Except PyErr PyVal := do
  let po ← pyGet info "price_overview"
  if po.truthy then
    let pod ← pyGetD info "price_overview" (.dict [])
    pyGet pod "final_formatted"
  else
    let fr ← pyGet info "is_free"
    pure (if fr.truthy then PyVal.str "Free" else PyVal.str "N/A")

/-- The header_image expression of line 69:
info.get( "header_image") or info.get( "screenshots", [\x7b\x7d])[0].get( "path_full") or "".
The or-chain short-circuits, so the screenshot lookup only runs when the
header image is falsy. -/
def headerCalc (info : PyVal) : Except PyErr PyVal := do
  let h ← pyGet info "header_image"
  if h.truthy then
    pure h
  else
    let ss ← pyGetD info "screenshots" (.list [.dict []])
    let s0 ← pyIndex ss 0
    let p ← pyGet s0 "path_full"
    pure (if p.truthy then p else PyVal.str "")

/-- The result dictionary of lines 62-71, built from the data block of a
successful response; the fields are evaluated in source order, and the
first lookup that raises aborts the construction. -/
def buildResult (appid : Int) (info : PyVal) : Except PyErr DetailsResult := do
  let nm ← pyGetD info "name" (.str "Unknown")
  let descr ← pyGetD info "short_description" (.str "No description available.")
  let fr ← pyGetD info "is_free" (.bool false)
  let price ← priceCalc info
  let rating ← do
    let mc ← pyGetD info "metacritic" (.dict [])
    pyGetD mc "score" (.str "N/A")
  let header ← headerCalc info
  pure { appid := appid, name := nm, description := descr, is_free := fr,
         price := price, rating := rating, header_image := header,
         steam_url := "https://store.steampowered.com/app/" ++ toString appid }

/-- get_app_details(appid): None on a non-200 status or a falsy success
flag; otherwise the normalized result built from the data block.  A
network failure or a lookup on an ill-shaped body raises. -/
def get_app_details (appid : Int) (resp : DetailsResp) :
    Except PyErr (Option DetailsResult) :=
  match resp with
  | .netError => .error .networkError
  | .ok status body =>
    if status ≠ 200 then .ok Option.none
    else do
      let data ← pyGetD body (toString appid) (.dict [])
      let succ ← pyGet data "success"
      if succ.truthy = false then pure Option.none
      else do
        let info ← pyGetD data "data" (.dict [])
        let res ← buildResult appid info
        pure (some res)

/-! ## The catalog cache (lines 14-39) -/

/-- The state of the local apps_cache.json file: missing, present but
failing to parse (json.load raises), or holding a parsed JSON value. -/
inductive CacheFile where
  | absent : CacheFile
  | corrupt : CacheFile
  | content : PyVal → CacheFile

/-- load_apps_cache(): None when the file does not exist, None when
reading or parsing raises, else the parsed value. -/
def load_apps_cache : CacheFile → Option PyVal
  | .absent => Option.none
  | .corrupt => Option.none
  | .content v => some v

/-- save_apps_cache(data): overwrite the cache file wholesale with the
serialized data. -/
def save_apps_cache (data : PyVal) : CacheFile :=
  .content data

/-- The response of the remote catalog listing endpoint. -/
inductive RemoteResp where
  | netError : RemoteResp
  | ok : Nat → PyVal → RemoteResp

/-- fetch_and_cache_apps(): fetch the app list, raise on a network
failure or an error status (raise_for_status), extract
applist.apps with empty defaults, save it, return it together with the
new cache file state. -/
def fetch_and_cache_apps (remote : RemoteResp) :
    Except PyErr (PyVal × CacheFile) :=
  match remote with
  | .netError => .error .networkError
  | .ok status body =>
    if 400 ≤ status then .error .httpError
    else do
      let applist ← pyGetD body "applist" (.dict [])
      let data ← pyGetD applist "apps" (.list [])
      pure (data, save_apps_cache data)

/-- get_all_apps(): the cached value when the cache loads, else
fetch-then-cache.  Returns the apps value and the cache file state after
the call. -/
def get_all_apps (st : CacheFile) (remote : RemoteResp) :
    Except PyErr (PyVal × CacheFile) :=
  match load_apps_cache st with
  | some apps => .ok (apps, st)
  | Option.none => fetch_and_cache_apps remote

/-! ## The history log (lines 74-95) -/

/-- The state of the local search_history.json file; content holds the
parsed JSON array. -/
inductive HistFile where
  | absent : HistFile
  | corrupt : HistFile
  | content : List PyVal → HistFile

/-- append_history(entry): read the current list ([] when the file is
missing or unreadable), insert the entry at position 0, truncate to the
first 100 entries, and write the result back. -/
def append_history (entry : PyVal) (st : HistFile) : HistFile :=
  let history : List PyVal :=
    match st with
    | .absent => []
    | .corrupt => []
    | .content l => l
  .content ((entry :: history).take 100)

/-- load_history(): the parsed list, or [] when the file is missing or
unreadable or fails to parse. -/
def load_history : HistFile → List PyVal
  | .absent => []
  | .corrupt => []
  | .content l => l

/-- N successive append_history calls, oldest first. -/
def appendAll (entries : List PyVal) (st : HistFile) : HistFile :=
  entries.foldl (fun s e => append_history e s) st

/-! ## The search route (index, lines 97-119) -/

/-- Python str.strip(): drop leading and trailing whitespace, modelled
over the character list. -/
def pyStrip (s : String) : String :=
  String.mk (((s.data.dropWhile Char.isWhitespace).reverse.dropWhile
    Char.isWhitespace).reverse)

/-- Outcome of a POST to the index route, as far as search is concerned:
either an error message, or the search results. -/
structure IndexOutcome where
  error : Option String
  results : Option (List CatalogEntry)

/-- The POST branch of the index route: strip the submitted name; a
falsy (empty) query is rejected with a message and search_apps is not
called; otherwise search_apps runs with limit 15. -/
def index_post (game_name : String) (catalog : List CatalogEntry) :
    IndexOutcome :=
  let query := pyStrip game_name
  if query ≠ "" then
    { error := Option.none, results := some (search_apps catalog query 15) }
  else
    { error := some "Please enter a game name.", results := Option.none }

/-! ## Lemmas about the search loop -/

/-- Running the search loop from an accumulator below the limit yields
the accumulator followed by the first (limit - |acc|) matches. -/
theorem search_go_append (q : String) (limit : Nat) :
    ∀ (apps acc : List CatalogEntry), acc.length < limit →
      search_go q limit apps acc
        = acc ++ (apps.filter (matchesQuery q)).take (limit - acc.length) := by
  intro apps
  induction apps with
  | nil => intro acc _; simp [search_go]
  | cons a rest ih =>
    intro acc h
    unfold search_go
    by_cases hm : matchesQuery q a
    · simp only [hm, if_true]
      by_cases hl : limit ≤ (acc ++ [a]).length
      · have hone : limit - acc.length = 1 := by
          simp only [List.length_append, List.length_singleton] at hl
          omega
        simp only [hl, if_true]
        rw [List.filter_cons_of_pos hm, hone]
        simp
      · have hlt : (acc ++ [a]).length < limit := by omega
        simp only [hl, if_false]
        rw [ih _ hlt, List.filter_cons_of_pos hm]
        have hsub : limit - acc.length = (limit - (acc ++ [a]).length) + 1 := by
          simp only [List.length_append, List.length_singleton]
          omega
        rw [hsub, List.take_succ_cons, List.append_assoc]
        rfl
    · rw [Bool.not_eq_true] at hm
      simp only [hm, Bool.false_eq_true, if_false]
      rw [ih acc h, List.filter_cons_of_neg (by simp [hm])]

/-- The empty string is a substring of every string. -/
theorem strContains_empty (s : String) : strContains s "" = true := by
  unfold strContains
  cases s.data with
  | nil => rfl
  | cons a as => simp [List.tails, List.isPrefixOf]

/-! ## Claim C1: search_apps returns the first limit matches -/

/-- C1 counterexample: with limit 0 the length check fires only after a
match was appended, so search_apps returns one entry, not at most 0. -/
theorem claim_C1_cex :
    search_apps [⟨1, "a"⟩] "a" 0 = [⟨1, "a"⟩]
    ∧ ¬ (search_apps [⟨1, "a"⟩] "a" 0).length ≤ 0 := by
  decide

/-- C1 (amended): for every catalog snapshot C, query Q and limit L with
L ≥ 1, search_apps returns exactly the first L (or fewer) entries of C,
in catalog order, whose lower-cased name contains the lower-cased Q as a
substring; every returned entry matches case-insensitively and the
result count is at most L. -/
theorem claim_C1 (C : List CatalogEntry) (Q : String) (L : Nat)
    (hL : 1 ≤ L) :
    search_apps C Q L = (C.filter (matchesQuery (strLower Q))).take L
    ∧ (search_apps C Q L).length ≤ L
    ∧ ∀ e ∈ search_apps C Q L,
        strContains (strLower e.name) (strLower Q) = true := by
  have h := search_go_append (strLower Q) L C [] (by simpa using hL)
  have hmain : search_apps C Q L
      = (C.filter (matchesQuery (strLower Q))).take L := by
    simpa [search_apps] using h
  refine ⟨hmain, ?_, ?_⟩
  · rw [hmain]
    exact le_trans (List.length_take_le _ _) (le_refl _)
  · intro e he
    rw [hmain] at he
    have := List.mem_of_mem_take he
    have := List.of_mem_filter this
    simpa [matchesQuery] using this

/-- Witness for C1 at the spec scenario: catalog Half-Life, Half-Life 2,
Portal with query half and limit 10. -/
theorem claim_C1_w :
    (1 : Nat) ≤ 10
    ∧ (search_apps [⟨1, "Half-Life"⟩, ⟨2, "Half-Life 2"⟩, ⟨3, "Portal"⟩] "half" 10
        = (([⟨1, "Half-Life"⟩, ⟨2, "Half-Life 2"⟩, ⟨3, "Portal"⟩] :
            List CatalogEntry).filter (matchesQuery (strLower "half"))).take 10
      ∧ (search_apps [⟨1, "Half-Life"⟩, ⟨2, "Half-Life 2"⟩, ⟨3, "Portal"⟩] "half" 10).length ≤ 10
      ∧ ∀ e ∈ search_apps [⟨1, "Half-Life"⟩, ⟨2, "Half-Life 2"⟩, ⟨3, "Portal"⟩] "half" 10,
          strContains (strLower e.name) (strLower "half") = true) :=
  ⟨by decide, claim_C1 [⟨1, "Half-Life"⟩, ⟨2, "Half-Life 2"⟩, ⟨3, "Portal"⟩] "half" 10 (by decide)⟩

/-! ## Claim C9: the empty query is accepted by the search component -/

/-- C9: search_apps itself does not reject the empty query: for L > 0 it
returns the first min(L, |C|) entries of C, because the empty string is
a substring of every name; the empty-query rejection lives in the index
route, which answers with an error message and no results. -/
theorem claim_C9 (C : List CatalogEntry) (L : Nat) (hL : 0 < L) :
    search_apps C "" L = C.take L
    ∧ (search_apps C "" L).length = min L C.length
    ∧ (index_post "" C).results = Option.none
    ∧ (index_post "" C).error = some "Please enter a game name." := by
  have hfil : C.filter (matchesQuery (strLower "")) = C := by
    apply List.filter_eq_self.mpr
    intro e _
    simpa [matchesQuery, strLower] using strContains_empty (strLower e.name)
  have h := search_go_append (strLower "") L C [] (by simpa using hL)
  have hmain : search_apps C "" L = C.take L := by
    rw [search_apps, h, hfil]
    simp
  refine ⟨hmain, ?_, ?_, ?_⟩
  · rw [hmain, List.length_take]
  · rfl
  · rfl

/-- Witness for C9 at a one-entry catalog and limit 1. -/
theorem claim_C9_w :
    0 < 1
    ∧ (search_apps [⟨1, "Portal"⟩] "" 1 = ([⟨1, "Portal"⟩] : List CatalogEntry).take 1
      ∧ (search_apps [⟨1, "Portal"⟩] "" 1).length = min 1 ([⟨1, "Portal"⟩] : List CatalogEntry).length
      ∧ (index_post "" [⟨1, "Portal"⟩]).results = Option.none
      ∧ (index_post "" [⟨1, "Portal"⟩]).error = some "Please enter a game name.") :=
  ⟨by decide, claim_C9 [⟨1, "Portal"⟩] 1 (by decide)⟩

/-! ## Lemmas about the history log -/

/-- One append writes the entry in front of the loaded list, truncated
to 100. -/
theorem load_history_append (e : PyVal) (st : HistFile) :
    load_history (append_history e st)
      = e :: (load_history st).take 99 := by
  have h100 : (100 : Nat) = 99 + 1 := by norm_num
  cases st <;> simp [append_history, load_history, h100, List.take_succ_cons]

/-- Truncating the second summand of an append before taking changes
nothing: only the first n elements matter. -/
theorem take_append_take (n : Nat) (A B : List PyVal) :
    (A ++ B.take n).take n = (A ++ B).take n := by
  rw [List.take_append_eq_append_take, List.take_append_eq_append_take,
    List.take_take, Nat.min_eq_left (Nat.sub_le n A.length)]

/-- Folding append_history over a list of entries from a state holding
at most 100 entries: the final content is the reversed entries followed
by the old list, truncated to 100. -/
theorem appendAll_content (es : List PyVal) :
    ∀ (l : List PyVal), l.length ≤ 100 →
      appendAll es (.content l) = .content ((es.reverse ++ l).take 100) := by
  induction es with
  | nil =>
    intro l hl
    simp [appendAll, List.take_of_length_le hl]
  | cons e rest ih =>
    intro l hl
    have hstep : appendAll (e :: rest) (.content l)
        = appendAll rest (.content ((e :: l).take 100)) := by
      simp [appendAll, append_history]
    rw [hstep, ih _ (by simp)]
    rw [take_append_take]
    simp

/-- Appending a nonempty batch of entries to the absent file yields the
reversed batch truncated to 100. -/
theorem appendAll_absent (e : PyVal) (rest : List PyVal) :
    appendAll (e :: rest) .absent
      = .content ((e :: rest).reverse.take 100) := by
  have hstep : appendAll (e :: rest) .absent
      = appendAll rest (.content [e]) := by
    simp [appendAll, append_history]
  rw [hstep, appendAll_content rest [e] (by simp)]
  simp

/-! ## Claim C2: the persisted history is bounded by 100, newest first -/

/-- C2: after any append the persisted history has length at most 100
and starts with the appended entry; after more than 100 appends from the
absent file, the history is exactly the last 100 entries newest first:
its length is 100, its head is the most recent append, and everything
beyond the first 100 (in particular the 101st-from-newest entry) is
dropped. -/
theorem claim_C2 :
    (∀ (e : PyVal) (st : HistFile),
        (load_history (append_history e st)).length ≤ 100
        ∧ (load_history (append_history e st)).head? = some e)
    ∧ ∀ (es : List PyVal), 100 < es.length →
        load_history (appendAll es .absent) = es.reverse.take 100
        ∧ (load_history (appendAll es .absent)).length = 100
        ∧ (load_history (appendAll es .absent)).head? = es.getLast? := by
  constructor
  · intro e st
    rw [load_history_append]
    constructor
    · simp
    · rfl
  · intro es hlen
    cases es with
    | nil => simp at hlen
    | cons e rest =>
      have hmain : load_history (appendAll (e :: rest) .absent)
          = (e :: rest).reverse.take 100 := by
        rw [appendAll_absent]
        rfl
      refine ⟨hmain, ?_, ?_⟩
      · rw [hmain, List.length_take, List.length_reverse]
        omega
      · rw [hmain]
        rcases hrev : (e :: rest).reverse with _ | ⟨c, cs⟩
        · exact absurd (List.reverse_eq_nil_iff.mp hrev) (by simp)
        · have h100 : (100 : Nat) = 99 + 1 := by norm_num
          rw [h100, List.take_succ_cons]
          rw [← List.head?_reverse, hrev]
          rfl

/-- Witness for C2 at a batch of 101 appends. -/
theorem claim_C2_w :
    100 < (List.replicate 101 (PyVal.int 0)).length
    ∧ (load_history (appendAll (List.replicate 101 (PyVal.int 0)) .absent)
        = (List.replicate 101 (PyVal.int 0)).reverse.take 100
      ∧ (load_history (appendAll (List.replicate 101 (PyVal.int 0)) .absent)).length = 100
      ∧ (load_history (appendAll (List.replicate 101 (PyVal.int 0)) .absent)).head?
          = (List.replicate 101 (PyVal.int 0)).getLast?) :=
  ⟨by simp, claim_C2.2 (List.replicate 101 (PyVal.int 0)) (by simp)⟩

/-! ## Claim C10: append restores the 100-entry bound -/

/-- C10: for every pre-existing history file state, including a stored
list already longer than 100 entries, the list written by append_history
is the entry followed by the first 99 previous elements in order; its
length is min(previous length + 1, 100) and its head is the new
entry. -/
theorem claim_C10 :
    ∀ (e : PyVal) (st : HistFile),
      load_history (append_history e st) = e :: (load_history st).take 99
      ∧ (load_history (append_history e st)).length
          = min ((load_history st).length + 1) 100
      ∧ (load_history (append_history e st)).head? = some e := by
  intro e st
  refine ⟨load_history_append e st, ?_, ?_⟩
  · rw [load_history_append]
    simp [List.length_take]
    omega
  · rw [load_history_append]
    rfl

/-! ## Claim C8: load_history fails open and preserves the stored order -/

/-- C8: load_history returns the stored sequence unchanged (hence in the
newest-first order append_history writes it, as witnessed by the head of
a freshly appended state), and returns the empty sequence when the file
is absent or corrupt. -/
theorem claim_C8 :
    load_history HistFile.absent = []
    ∧ load_history HistFile.corrupt = []
    ∧ (∀ (l : List PyVal), load_history (HistFile.content l) = l)
    ∧ ∀ (e : PyVal) (st : HistFile),
        (load_history (append_history e st)).head? = some e := by
  refine ⟨rfl, rfl, fun l => rfl, fun e st => ?_⟩
  rw [load_history_append]
  rfl

/-! ## Helper for destructing Except binds -/

/-- A successful bind factors into a successful first step and a
successful continuation. -/
theorem exceptBind_ok {α β : Type} {e : Except PyErr α}
    {f : α → Except PyErr β} {b : β} (h : (e >>= f) = .ok b) :
    ∃ a, e = .ok a ∧ f a = .ok b := by
  cases e with
  | error err => simp [Bind.bind, Except.bind] at h
  | ok a => exact ⟨a, rfl, by simpa [Bind.bind, Except.bind] using h⟩

/-! ## Claim C7: save then load round-trips for the catalog cache -/

/-- C7: saving a value and loading it back returns exactly that value;
in particular a saved sequence of catalog entries is loaded back
unchanged. -/
theorem claim_C7 :
    (∀ (data : PyVal), load_apps_cache (save_apps_cache data) = some data)
    ∧ ∀ (entries : List PyVal),
        load_apps_cache (save_apps_cache (PyVal.list entries))
          = some (PyVal.list entries) :=
  ⟨fun _ => rfl, fun _ => rfl⟩

/-! ## Claim C6: get_all_apps is load-or-fetch-then-cache -/

/-- C6: when the cache file holds a parseable value, get_all_apps
returns it and leaves the state alone; when the load yields nothing
(absent, unreadable or corrupt file), it defers to
fetch_and_cache_apps, which on a good response extracts applist.apps,
writes it to the cache as a side effect, and returns it. -/
theorem claim_C6 :
    (∀ (v : PyVal) (r : RemoteResp),
        get_all_apps (.content v) r = .ok (v, .content v))
    ∧ (∀ (st : CacheFile) (r : RemoteResp), load_apps_cache st = Option.none →
        get_all_apps st r = fetch_and_cache_apps r)
    ∧ ∀ (st : CacheFile) (status : Nat) (body al data : PyVal),
        load_apps_cache st = Option.none → status < 400 →
        pyGetD body "applist" (.dict []) = .ok al →
        pyGetD al "apps" (.list []) = .ok data →
        get_all_apps st (.ok status body)
          = .ok (data, save_apps_cache data) := by
  refine ⟨fun v r => rfl, fun st r h => ?_, ?_⟩
  · unfold get_all_apps
    rw [h]
  · intro st status body al data hld hstat h1 h2
    have hdef : get_all_apps st (.ok status body)
        = fetch_and_cache_apps (.ok status body) := by
      unfold get_all_apps
      rw [hld]
    rw [hdef]
    simp only [fetch_and_cache_apps]
    rw [if_neg (by omega)]
    simp only [Bind.bind, Except.bind]
    simp only [h1, h2]
    rfl

/-- Witness for C6: an absent cache and a 200 response holding one
app. -/
theorem claim_C6_w :
    load_apps_cache CacheFile.absent = Option.none
    ∧ (200 : Nat) < 400
    ∧ pyGetD (PyVal.dict [( "applist", PyVal.dict [( "apps",
        PyVal.list [PyVal.dict [( "appid", PyVal.int 570), ( "name", PyVal.str "Dota 2")]])])])
        "applist" (.dict [])
        = .ok (PyVal.dict [( "apps",
            PyVal.list [PyVal.dict [( "appid", PyVal.int 570), ( "name", PyVal.str "Dota 2")]])])
    ∧ pyGetD (PyVal.dict [( "apps",
        PyVal.list [PyVal.dict [( "appid", PyVal.int 570), ( "name", PyVal.str "Dota 2")]])])
        "apps" (.list [])
        = .ok (PyVal.list [PyVal.dict [( "appid", PyVal.int 570), ( "name", PyVal.str "Dota 2")]])
    ∧ get_all_apps CacheFile.absent (.ok 200 (PyVal.dict [( "applist", PyVal.dict [( "apps",
        PyVal.list [PyVal.dict [( "appid", PyVal.int 570), ( "name", PyVal.str "Dota 2")]])])]))
        = .ok (PyVal.list [PyVal.dict [( "appid", PyVal.int 570), ( "name", PyVal.str "Dota 2")]],
            save_apps_cache (PyVal.list [PyVal.dict [( "appid", PyVal.int 570), ( "name", PyVal.str "Dota 2")]])) :=
  ⟨rfl, by omega, rfl, rfl,
    claim_C6.2.2 CacheFile.absent 200 _ _ _ rfl (by omega) rfl rfl⟩

/-- A successful pyGetD forces the receiver to be a dict and the result
to be the looked-up value or the default. -/
theorem pyGetD_ok {info : PyVal} {k : String} {d v : PyVal}
    (h : pyGetD info k d = .ok v) :
    ∃ kvs, info = .dict kvs ∧ (kvs.lookup k).getD d = v := by
  cases info with
  | dict kvs => exact ⟨kvs, rfl, by injection h⟩
  | none => exact Except.noConfusion h
  | bool b => exact Except.noConfusion h
  | int n => exact Except.noConfusion h
  | str s => exact Except.noConfusion h
  | list xs => exact Except.noConfusion h

/-- When the looked-up-or-default value differs from the default, the
lookup itself found it. -/
theorem lookup_of_getD_ne {kvs : List (String × PyVal)} {k : String}
    {d v : PyVal} (h : (kvs.lookup k).getD d = v) (hne : v ≠ d) :
    kvs.lookup k = some v := by
  cases hl : kvs.lookup k with
  | none =>
    rw [hl] at h
    simp only [Option.getD_none] at h
    exact absurd h.symm hne
  | some w =>
    rw [hl] at h
    simp only [Option.getD_some] at h
    rw [h]

/-! ## Claim C3: absent on non-200 or failed success flag; a network
failure raises instead -/

/-- C3 counterexample: a network failure on the details call does not
yield absent; get_app_details propagates the exception. -/
theorem claim_C3_cex :
    get_app_details 570 DetailsResp.netError = .error .networkError
    ∧ get_app_details 570 DetailsResp.netError ≠ .ok Option.none :=
  ⟨rfl, fun h => Except.noConfusion h⟩

/-- C3 (amended): get_app_details returns absent when the HTTP status of
the details call is not 200, and when the success flag of the response
for the identifier is falsy; a network failure instead raises an
exception that propagates out of get_app_details (its caller has no
handler for it). -/
theorem claim_C3 :
    (∀ (appid : Int) (status : Nat) (body : PyVal), status ≠ 200 →
        get_app_details appid (.ok status body) = .ok Option.none)
    ∧ (∀ (appid : Int) (body data s : PyVal),
        pyGetD body (toString appid) (.dict []) = .ok data →
        pyGet data "success" = .ok s → s.truthy = false →
        get_app_details appid (.ok 200 body) = .ok Option.none)
    ∧ ∀ (appid : Int),
        get_app_details appid .netError = .error .networkError := by
  refine ⟨?_, ?_, fun appid => rfl⟩
  · intro appid status body h
    simp only [get_app_details]
    rw [if_pos h]
  · intro appid body data s h1 h2 h3
    simp only [get_app_details]
    rw [if_neg (by simp)]
    simp only [Bind.bind, Except.bind, h1, h2, h3]
    rfl

/-- Witness for C3 at the spec scenario: the body maps 570 to a failed
success flag, and the call returns absent. -/
theorem claim_C3_w :
    pyGetD (PyVal.dict [( "570", PyVal.dict [( "success", PyVal.bool false)])])
        (toString (570 : Int)) (.dict [])
        = .ok (PyVal.dict [( "success", PyVal.bool false)])
    ∧ pyGet (PyVal.dict [( "success", PyVal.bool false)]) "success"
        = .ok (PyVal.bool false)
    ∧ (PyVal.bool false).truthy = false
    ∧ get_app_details 570
        (.ok 200 (PyVal.dict [( "570", PyVal.dict [( "success", PyVal.bool false)])]))
        = .ok Option.none :=
  ⟨rfl, rfl, rfl,
    claim_C3.2.1 570 (PyVal.dict [( "570", PyVal.dict [( "success", PyVal.bool false)])])
      (PyVal.dict [( "success", PyVal.bool false)]) (PyVal.bool false) rfl rfl rfl⟩

/-! ## Claim C5: price derivation -/

/-- C5: in a successful details response, when the price_overview block
is a truthy structured block, the price field is its final_formatted
value; when the block is missing or falsy, the price is "Free" when
is_free is truthy and "N/A" otherwise; and the price field of any result
built by get_app_details is exactly the value priceCalc computes. -/
theorem claim_C5 :
    (∀ (info : PyVal) (pkvs : List (String × PyVal)),
        pyGet info "price_overview" = .ok (.dict pkvs) →
        (PyVal.dict pkvs).truthy = true →
        priceCalc info = .ok ((pkvs.lookup "final_formatted").getD .none))
    ∧ (∀ (info po fr : PyVal),
        pyGet info "price_overview" = .ok po → po.truthy = false →
        pyGet info "is_free" = .ok fr →
        priceCalc info
          = .ok (if fr.truthy then PyVal.str "Free" else PyVal.str "N/A"))
    ∧ ∀ (appid : Int) (info : PyVal) (res : DetailsResult),
        buildResult appid info = .ok res → priceCalc info = .ok res.price := by
  refine ⟨?_, ?_, ?_⟩
  · intro info pkvs h1 h2
    obtain ⟨kvs, hinfo, hv⟩ := pyGetD_ok h1
    have hlk : kvs.lookup "price_overview" = some (PyVal.dict pkvs) :=
      lookup_of_getD_ne hv (by intro h; cases h)
    subst hinfo
    simp only [priceCalc, pyGet, pyGetD, Bind.bind, Except.bind, hlk,
      Option.getD_some, h2]
    rfl
  · intro info po fr h1 hfalse h2
    obtain ⟨kvs, hinfo, hv⟩ := pyGetD_ok h1
    subst hinfo
    have hv2 : (kvs.lookup "is_free").getD PyVal.none = fr := by
      have := pyGetD_ok h2
      obtain ⟨kvs2, heq, hgot⟩ := this
      injection heq with heq2
      rw [← heq2] at hgot
      exact hgot
    simp only [priceCalc, pyGet, pyGetD, Bind.bind, Except.bind, hv, hv2,
      hfalse]
    rfl
  · intro appid info res h
    unfold buildResult at h
    obtain ⟨nm, h1, h⟩ := exceptBind_ok h
    obtain ⟨descr, h2, h⟩ := exceptBind_ok h
    obtain ⟨fr, h3, h⟩ := exceptBind_ok h
    obtain ⟨price, h4, h⟩ := exceptBind_ok h
    obtain ⟨mc, h5, h⟩ := exceptBind_ok h
    obtain ⟨sc, h6, h⟩ := exceptBind_ok h
    obtain ⟨hd, h7, h⟩ := exceptBind_ok h
    injection h with h8
    rw [h4, ← h8]

/-- Witness for C5 at the spec scenario: no price_overview and
is_free=true gives price "Free". -/
theorem claim_C5_w :
    pyGet (PyVal.dict [( "is_free", PyVal.bool true)]) "price_overview"
      = .ok PyVal.none
    ∧ PyVal.none.truthy = false
    ∧ pyGet (PyVal.dict [( "is_free", PyVal.bool true)]) "is_free"
      = .ok (PyVal.bool true)
    ∧ priceCalc (PyVal.dict [( "is_free", PyVal.bool true)])
      = .ok (if (PyVal.bool true).truthy then PyVal.str "Free"
             else PyVal.str "N/A") :=
  ⟨rfl, rfl, rfl,
    claim_C5.2.1 (PyVal.dict [( "is_free", PyVal.bool true)]) PyVal.none
      (PyVal.bool true) rfl rfl rfl⟩

/-! ## Claim C4: header image derivation -/

/-- C4 counterexample: with a successful response whose data block has a
present-but-empty screenshots list and no header image, get_app_details
raises IndexError instead of returning a result with an empty
header_image. -/
theorem claim_C4_cex :
    get_app_details 1 (.ok 200 (PyVal.dict [( "1", PyVal.dict
        [( "success", PyVal.bool true),
         ( "data", PyVal.dict [( "screenshots", PyVal.list [])])])]))
      = .error .indexError
    ∧ ¬ ∃ r, get_app_details 1 (.ok 200 (PyVal.dict [( "1", PyVal.dict
        [( "success", PyVal.bool true),
         ( "data", PyVal.dict [( "screenshots", PyVal.list [])])])]))
      = .ok r :=
  ⟨rfl, fun ⟨_, hr⟩ => Except.noConfusion hr⟩

/-- C4 (amended): the header_image field equals the primary header image
when it is truthy; otherwise, when the screenshots field is absent, the
empty string; when screenshot data is present and nonempty, the first
screenshot path_full when truthy and the empty string otherwise; but a
present-but-empty screenshots list makes the lookup raise IndexError
instead of producing a result.  The header_image field of any result
built by get_app_details is exactly the value headerCalc computes. -/
theorem claim_C4 :
    (∀ (kvs : List (String × PyVal)),
        ((kvs.lookup "header_image").getD .none).truthy = true →
        headerCalc (.dict kvs)
          = .ok ((kvs.lookup "header_image").getD .none))
    ∧ (∀ (kvs : List (String × PyVal)),
        ((kvs.lookup "header_image").getD .none).truthy = false →
        kvs.lookup "screenshots" = Option.none →
        headerCalc (.dict kvs) = .ok (.str ""))
    ∧ (∀ (kvs : List (String × PyVal)),
        ((kvs.lookup "header_image").getD .none).truthy = false →
        kvs.lookup "screenshots" = some (.list []) →
        headerCalc (.dict kvs) = .error .indexError)
    ∧ (∀ (kvs skvs : List (String × PyVal)) (rest : List PyVal),
        ((kvs.lookup "header_image").getD .none).truthy = false →
        kvs.lookup "screenshots" = some (.list (.dict skvs :: rest)) →
        headerCalc (.dict kvs)
          = .ok (if ((skvs.lookup "path_full").getD .none).truthy
                 then (skvs.lookup "path_full").getD .none
                 else .str ""))
    ∧ ∀ (appid : Int) (info : PyVal) (res : DetailsResult),
        buildResult appid info = .ok res →
        headerCalc info = .ok res.header_image := by
  refine ⟨?_, ?_, ?_, ?_, ?_⟩
  · intro kvs htr
    simp only [headerCalc, pyGet, pyGetD, Bind.bind, Except.bind, htr]
    rfl
  · intro kvs htr hss
    simp only [headerCalc, pyGet, pyGetD, pyIndex, Bind.bind, Except.bind,
      htr, hss]
    rfl
  · intro kvs htr hss
    simp only [headerCalc, pyGet, pyGetD, pyIndex, Bind.bind, Except.bind,
      htr, hss]
    rfl
  · intro kvs skvs rest htr hss
    simp only [headerCalc, pyGet, pyGetD, pyIndex, Bind.bind, Except.bind,
      htr, hss]
    rfl
  · intro appid info res h
    unfold buildResult at h
    obtain ⟨nm, h1, h⟩ := exceptBind_ok h
    obtain ⟨descr, h2, h⟩ := exceptBind_ok h
    obtain ⟨fr, h3, h⟩ := exceptBind_ok h
    obtain ⟨price, h4, h⟩ := exceptBind_ok h
    obtain ⟨mc, h5, h⟩ := exceptBind_ok h
    obtain ⟨sc, h6, h⟩ := exceptBind_ok h
    obtain ⟨hd, h7, h⟩ := exceptBind_ok h
    injection h with h8
    rw [h7, ← h8]

/-- Witness for C4: a data block with a truthy header image. -/
theorem claim_C4_w :
    ((([( "header_image", PyVal.str "http://img")] :
        List (String × PyVal)).lookup "header_image").getD PyVal.none).truthy
      = true
    ∧ headerCalc (.dict [( "header_image", PyVal.str "http://img")])
      = .ok ((([( "header_image", PyVal.str "http://img")] :
          List (String × PyVal)).lookup "header_image").getD PyVal.none) :=
  ⟨rfl, claim_C4.1 [( "header_image", PyVal.str "http://img")] rfl⟩
